import Mathlib

/-!
Verification of the Team_Generator repository: a shallow embedding of the
team-generation routine (`generateTeams` / `renderTeams` in `script.js`)
and of the REST handlers (`server.js` and its variants), together with
theorems settling the specification's claims.

JavaScript numbers are modelled as exact integers / rationals; the
comparator-based shuffle is modelled as an arbitrary function `shuffle`
constrained (where a claim needs it) to permute or preserve the length of
its input, which every comparator sort does.
-/

namespace TeamGenerator

/-- A team as built by `generateTeams` in `script.js`: a display name and an
ordered member list.  The member type is a parameter because the generator
never inspects the players it distributes. -/
structure Team (α : Type) where
  name : String
  members : List α
deriving DecidableEq, Repr

/-- `script.js` line 231: `Array.from({ length: numTeams }, (_, i) => ({ name:
`Team ${i+1}`, members: [] }))`.  A negative or zero length yields an empty
array (JavaScript `ToLength` clamps negatives to 0), modelled by `Int.toNat`. -/
def initTeams (α : Type) (numTeams : Int) : List (Team α) :=
  (List.range numTeams.toNat).map (fun i => ⟨"Team " ++ toString (i + 1), []⟩)

/-- `currentTeams[teamIndex].members.push(person)`: append `p` to the member
list of the team at position `j`, leaving the list unchanged if `j` is out of
range (the out-of-range case is guarded against separately, since in
JavaScript it throws). -/
def pushMember (p : α) : Nat → List (Team α) → List (Team α)
  | _, [] => []
  | 0, t :: ts => ⟨t.name, t.members ++ [p]⟩ :: ts
  | j + 1, t :: ts => t :: pushMember p j ts

/-- The `shuffled.forEach((person, index) => ...)` loop of `script.js` lines
237-240: walk the shuffled players with their indices, pushing the player at
index `i` onto team `i % numTeams`.  `i % 0` is `NaN` in JavaScript and
`currentTeams[NaN]` is `undefined`, so pushing onto it throws; similarly for
an index beyond the team array.  Both runtime failures are modelled by
`none`. -/
def distributeGo (numTeams : Int) : Nat → List α → List (Team α) → Option (List (Team α))
  | _, [], teams => some teams
  | i, p :: ps, teams =>
    if numTeams = 0 then none
    else
      let j := i % numTeams.natAbs
      if j < teams.length then distributeGo numTeams (i + 1) ps (pushMember p j teams)
      else none

/-- Build the team array and run the distribution loop (`script.js` lines
231-240). -/
def distribute (shuffled : List α) (numTeams : Int) : Option (List (Team α)) :=
  distributeGo numTeams 0 shuffled (initTeams α numTeams)

/-- Outcome of one call to `generateTeams`: the early-return validation alert
(which reports the required minimum number of players, i.e. `numTeams`), a
runtime type error thrown while distributing, or a produced team list. -/
inductive GenResult (α : Type) where
  | validationError (required : Int)
  | typeError
  | ok (teams : List (Team α))
deriving DecidableEq, Repr

/-- `generateTeams` of `script.js` lines 219-244.  `persons.length < numTeams`
triggers the alert and an early return; otherwise a shuffled copy of the
players is distributed round-robin over `numTeams` fresh teams.  The shuffle
(`[...persons].sort(() => Math.random() - 0.5)`) is abstracted as the function
argument `shuffle`. -/
def generateTeams (persons : List α) (shuffle : List α → List α) (numTeams : Int) :
    GenResult α :=
  if (persons.length : Int) < numTeams then GenResult.validationError numTeams
  else
    match distribute (shuffle persons) numTeams with
    | none => GenResult.typeError
    | some ts => GenResult.ok ts

/-- Closed form of the team at index `j`: name `"Team (j+1)"` and, as members,
exactly the shuffled players whose index `i` satisfies `i % k = j`, in
increasing index order. -/
def teamAt (shuffled : List α) (k : Nat) (j : Nat) : Team α :=
  ⟨"Team " ++ toString (j + 1),
   ((shuffled.enumFrom 0).filter (fun q => q.1 % k = j)).map Prod.snd⟩

/-- Closed form of the whole team list produced by a successful generation. -/
def genResultTeams (shuffled : List α) (k : Nat) : List (Team α) :=
  (List.range k).map (teamAt shuffled k)

/-- `cntFrom k j i n` counts the indices `i, i+1, ..., i+n-1` that are
congruent to `j` modulo `k`; it is the size of the team at index `j` when `n`
players are dealt round-robin starting at index `i`. -/
def cntFrom (k j : Nat) : Nat → Nat → Nat
  | _, 0 => 0
  | i, n + 1 => (if i % k = j then 1 else 0) + cntFrom k j (i + 1) n

/-! ### Structural lemmas about the distribution loop -/

theorem pushMember_length (p : α) : ∀ (j : Nat) (l : List (Team α)),
    (pushMember p j l).length = l.length := by
  intro j l
  induction l generalizing j with
  | nil => cases j <;> rfl
  | cons t ts ih =>
    cases j with
    | zero => rfl
    | succ j => simp [pushMember, ih j]

theorem pushMember_getElem? (p : α) : ∀ (j0 j : Nat) (l : List (Team α)),
    (pushMember p j0 l)[j]? =
      (l[j]?).map (fun t => if j = j0 then ⟨t.name, t.members ++ [p]⟩ else t) := by
  intro j0 j l
  induction l generalizing j0 j with
  | nil => simp [pushMember]
  | cons t ts ih =>
    cases j0 with
    | zero =>
      cases j with
      | zero => simp [pushMember]
      | succ j =>
        cases h : ts[j]? <;> simp [pushMember, h]
    | succ j0 =>
      cases j with
      | zero => simp [pushMember]
      | succ j =>
        have := ih j0 j
        cases h : ts[j]? <;> simp_all [pushMember]

theorem distributeGo_eq (numTeams : Int) (h1 : 1 ≤ numTeams) :
    ∀ (ps : List α) (i : Nat) (teams : List (Team α)),
      teams.length = numTeams.natAbs →
      ∃ res, distributeGo numTeams i ps teams = some res ∧
        res.length = teams.length ∧
        ∀ j : Nat, res[j]? = (teams[j]?).map (fun t =>
          ⟨t.name, t.members ++
            ((ps.enumFrom i).filter (fun q => q.1 % numTeams.natAbs = j)).map Prod.snd⟩) := by
  intro ps
  induction ps with
  | nil =>
    intro i teams _
    refine ⟨teams, rfl, rfl, fun j => ?_⟩
    cases h : teams[j]? <;> simp [List.enumFrom, h]
  | cons p ps ih =>
    intro i teams ht
    have hk0 : ¬ numTeams = 0 := by omega
    have hkpos : 0 < numTeams.natAbs := by omega
    have hj0 : i % numTeams.natAbs < teams.length := by
      rw [ht]; exact Nat.mod_lt i hkpos
    obtain ⟨res, hres, hlen, hget⟩ :=
      ih (i + 1) (pushMember p (i % numTeams.natAbs) teams)
        ((pushMember_length p _ teams).trans ht)
    refine ⟨res, ?_, hlen.trans (pushMember_length p _ teams), fun j => ?_⟩
    · simpa [distributeGo, hk0, hj0] using hres
    · rw [hget j, pushMember_getElem? p _ j teams, Option.map_map]
      cases h : teams[j]? with
      | none => simp
      | some t =>
        simp only [Option.map_some', Function.comp_apply]
        by_cases hij : i % numTeams.natAbs = j
        · simp [List.enumFrom, hij, if_pos (hij.symm), List.filter_cons]
        · have hji : ¬ j = i % numTeams.natAbs := fun h => hij h.symm
          simp [List.enumFrom, hij, hji, List.filter_cons]

theorem initTeams_length (α : Type) (numTeams : Int) :
    (initTeams α numTeams).length = numTeams.toNat := by
  simp [initTeams]

theorem initTeams_getElem? (α : Type) (numTeams : Int) (j : Nat) :
    (initTeams α numTeams)[j]? =
      if j < numTeams.toNat
      then some ⟨"Team " ++ toString (j + 1), ([] : List α)⟩ else none := by
  by_cases hj : j < numTeams.toNat
  · simp [initTeams, List.getElem?_map, List.getElem?_range hj, hj]
  · rw [List.getElem?_eq_none]
    · simp [hj]
    · simpa [initTeams] using Nat.le_of_not_lt hj

theorem genResultTeams_length (shuffled : List α) (k : Nat) :
    (genResultTeams shuffled k).length = k := by
  simp [genResultTeams]

theorem genResultTeams_getElem? (shuffled : List α) (k j : Nat) :
    (genResultTeams shuffled k)[j]? =
      if j < k then some (teamAt shuffled k j) else none := by
  by_cases hj : j < k
  · simp [genResultTeams, List.getElem?_map, List.getElem?_range hj, hj]
  · rw [List.getElem?_eq_none]
    · simp [hj]
    · simpa [genResultTeams] using Nat.le_of_not_lt hj

theorem distribute_eq (shuffled : List α) (numTeams : Int) (h1 : 1 ≤ numTeams) :
    distribute shuffled numTeams = some (genResultTeams shuffled numTeams.toNat) := by
  have habs : numTeams.natAbs = numTeams.toNat := by omega
  obtain ⟨res, hres, hlen, hget⟩ :=
    distributeGo_eq numTeams h1 shuffled 0 (initTeams α numTeams)
      (by rw [initTeams_length, habs])
  have : res = genResultTeams shuffled numTeams.toNat := by
    apply List.ext_getElem?
    intro j
    rw [hget j, initTeams_getElem?, genResultTeams_getElem?]
    by_cases hj : j < numTeams.toNat <;> simp [hj, teamAt, habs]
  rw [distribute, hres, this]

theorem generateTeams_ok (persons : List α) (shuffle : List α → List α) (numTeams : Int)
    (h1 : 1 ≤ numTeams) (h2 : numTeams ≤ (persons.length : Int)) :
    generateTeams persons shuffle numTeams =
      GenResult.ok (genResultTeams (shuffle persons) numTeams.toNat) := by
  rw [generateTeams, if_neg (by omega), distribute_eq _ _ h1]

/-! ### The flattened output is a permutation of the distributed list -/

theorem pushMember_flatten_perm (p : α) : ∀ (j : Nat) (l : List (Team α)), j < l.length →
    ((pushMember p j l).map Team.members).flatten.Perm
      (((l.map Team.members).flatten) ++ [p]) := by
  intro j l
  induction l generalizing j with
  | nil => intro h; exact absurd h (by simp)
  | cons t ts ih =>
    intro hj
    cases j with
    | zero =>
      simp only [pushMember, List.map_cons, List.flatten_cons, List.append_assoc]
      exact List.Perm.append_left t.members List.perm_append_comm
    | succ j =>
      simp only [pushMember, List.map_cons, List.flatten_cons, List.append_assoc]
      exact List.Perm.append_left t.members (ih j (by simpa using hj))

theorem distributeGo_flatten_perm (numTeams : Int) :
    ∀ (ps : List α) (i : Nat) (teams res : List (Team α)),
      distributeGo numTeams i ps teams = some res →
      ((res.map Team.members).flatten).Perm (((teams.map Team.members).flatten) ++ ps) := by
  intro ps
  induction ps with
  | nil =>
    intro i teams res h
    cases h
    simp
  | cons p ps ih =>
    intro i teams res h
    rw [distributeGo] at h
    by_cases hk0 : numTeams = 0
    · simp [hk0] at h
    · simp only [if_neg hk0] at h
      by_cases hj : i % numTeams.natAbs < teams.length
      · rw [if_pos hj] at h
        refine (ih (i + 1) _ res h).trans ?_
        have h2 := List.Perm.append_right ps (pushMember_flatten_perm p _ teams hj)
        refine h2.trans (List.Perm.of_eq ?_)
        simp
      · rw [if_neg hj] at h
        cases h

theorem flatten_map_nil (l : List β) : (l.map (fun _ => ([] : List α))).flatten = [] := by
  induction l with
  | nil => rfl
  | cons x xs ih => simp [ih]

theorem genResultTeams_flatten_perm (shuffled : List α) (numTeams : Int) (h1 : 1 ≤ numTeams) :
    (((genResultTeams shuffled numTeams.toNat).map Team.members).flatten).Perm shuffled := by
  have h := distributeGo_flatten_perm numTeams shuffled 0 (initTeams α numTeams) _
    (distribute_eq shuffled numTeams h1)
  have hinit : ((initTeams α numTeams).map Team.members).flatten = [] := by
    rw [initTeams, List.map_map]
    exact flatten_map_nil _
  simpa [hinit] using h

/-! ### Team sizes: counting the indices of each residue class -/

theorem enumFrom_filter_length (k j : Nat) :
    ∀ (l : List α) (i : Nat),
      ((l.enumFrom i).filter (fun q => q.1 % k = j)).length = cntFrom k j i l.length := by
  intro l
  induction l with
  | nil => intro i; rfl
  | cons p ps ih =>
    intro i
    by_cases h : i % k = j <;>
      simp [List.enumFrom, List.filter_cons, h, cntFrom, ih (i + 1), Nat.add_comm]

theorem teamAt_members_length (shuffled : List α) (k j : Nat) :
    (teamAt shuffled k j).members.length = cntFrom k j 0 shuffled.length := by
  simp [teamAt, enumFrom_filter_length]

theorem cntFrom_succ_right (k j : Nat) :
    ∀ (n i : Nat), cntFrom k j i (n + 1) = cntFrom k j i n + (if (i + n) % k = j then 1 else 0) := by
  intro n
  induction n with
  | zero => intro i; simp [cntFrom]
  | succ n ih =>
    intro i
    have h1 : cntFrom k j i (n + 1 + 1) =
        (if i % k = j then 1 else 0) + cntFrom k j (i + 1) (n + 1) := rfl
    rw [h1, ih (i + 1), show i + 1 + n = i + (n + 1) from by omega]
    have h2 : cntFrom k j i (n + 1) = (if i % k = j then 1 else 0) + cntFrom k j (i + 1) n := rfl
    rw [h2]
    omega

theorem mod_eq_iff_dvd (k j : Nat) (_hk : 0 < k) (hj : j < k) (n : Nat) :
    n % k = j ↔ k ∣ n + (k - j) := by
  constructor
  · intro h
    obtain ⟨q, hq⟩ : ∃ q, n = k * q + j :=
      ⟨n / k, by rw [← h]; exact (Nat.div_add_mod n k).symm⟩
    refine ⟨q + 1, ?_⟩
    rw [hq, Nat.mul_add, Nat.mul_one, Nat.add_assoc,
      Nat.add_sub_cancel' (Nat.le_of_lt hj)]
  · intro h
    obtain ⟨d, hdq⟩ := h
    have hd0 : d ≠ 0 := by
      intro h0
      rw [h0, Nat.mul_zero] at hdq
      omega
    obtain ⟨e, rfl⟩ : ∃ e, d = e + 1 := ⟨d - 1, by omega⟩
    rw [Nat.mul_add, Nat.mul_one] at hdq
    have hn : n = k * e + j := by
      have h1 : n = k * e + k - (k - j) := Nat.eq_sub_of_add_eq hdq
      rw [h1, Nat.add_sub_assoc (Nat.sub_le k j), Nat.sub_sub_self (Nat.le_of_lt hj)]
    rw [hn, Nat.add_comm, Nat.add_mul_mod_self_left, Nat.mod_eq_of_lt hj]

theorem cntFrom_zero (k j : Nat) (hk : 0 < k) (hj : j < k) :
    ∀ n, cntFrom k j 0 n = (n + (k - 1 - j)) / k := by
  intro n
  induction n with
  | zero =>
    rw [Nat.div_eq_of_lt (by omega)]
    rfl
  | succ n ih =>
    rw [cntFrom_succ_right, ih]
    have h1 : n + 1 + (k - 1 - j) = n + (k - 1 - j) + 1 := by omega
    rw [h1, Nat.succ_div]
    have h2 : n + (k - 1 - j) + 1 = n + (k - j) := by omega
    rw [h2]
    have h3 : (0 + n) % k = j ↔ k ∣ n + (k - j) := by
      rw [Nat.zero_add]
      exact mod_eq_iff_dvd k j hk hj n
    simp only [h3]

theorem count_formula_aux (k j q r : Nat) (hk : 0 < k) (hj : j < k) (hr : r < k) :
    (k * q + r + (k - 1 - j)) / k = q + if j < r then 1 else 0 := by
  rw [Nat.add_assoc, Nat.mul_add_div hk]
  congr 1
  by_cases hjr : j < r
  · rw [if_pos hjr]
    have h2 : r + (k - 1 - j) = r - 1 - j + k := by omega
    rw [h2, Nat.add_div_right _ hk, Nat.div_eq_of_lt (by omega)]
  · rw [if_neg hjr]
    exact Nat.div_eq_of_lt (by omega)

theorem count_formula (k j : Nat) (hk : 0 < k) (hj : j < k) (n : Nat) :
    (n + (k - 1 - j)) / k = n / k + if j < n % k then 1 else 0 := by
  have h := count_formula_aux k j (n / k) (n % k) hk hj (Nat.mod_lt n hk)
  rw [Nat.div_add_mod] at h
  exact h

/-- The size of the team at index `j` depends only on the length of the
shuffled list: it is `floor(n/k)` plus one extra member for the first
`n mod k` teams. -/
theorem teamAt_size (shuffled : List α) (k j : Nat) (hk : 0 < k) (hj : j < k) :
    (teamAt shuffled k j).members.length =
      shuffled.length / k + if j < shuffled.length % k then 1 else 0 := by
  rw [teamAt_members_length, cntFrom_zero k j hk hj, count_formula k j hk hj]

/-! ### Player stats and the team average rating (`renderTeams`, `script.js` 252-258)

JavaScript numbers are modelled as exact rationals; the six stat values are
integers (`parseInt`-ed by the form handler). -/

/-- The six-field stats record of a player (`pace, shooting, passing,
dribbling, defending, physical`). -/
structure Stats where
  pace : Int
  shooting : Int
  passing : Int
  dribbling : Int
  defending : Int
  physical : Int
deriving DecidableEq, Repr

/-- A player as the renderer sees it: a name and a stats record. -/
structure Person where
  name : String
  stats : Stats
deriving DecidableEq, Repr

/-- `Object.values(member.stats).reduce((a, b) => a + b, 0)`: the sum of the
six stat fields. -/
def statsSum (s : Stats) : Int :=
  s.pace + s.shooting + s.passing + s.dribbling + s.defending + s.physical

/-- `overall` of one member: the six-stat sum divided by 6 (exact rational). -/
def overall (p : Person) : ℚ := (statsSum p.stats : ℚ) / 6

/-- JavaScript `Math.round`: round to the nearest integer, halves toward
positive infinity, i.e. `⌊x + 1/2⌋`. -/
def jsRound (q : ℚ) : Int := ⌊q + 1 / 2⌋

/-- `avgOverall` computed by `renderTeams` for one team: 0 for an empty team,
otherwise `Math.round` of the sum of the members' overalls divided by the
member count. -/
def avgOverall (t : Team Person) : Int :=
  if 0 < t.members.length then
    jsRound (((t.members.map overall).foldl (fun a b => a + b) 0) / (t.members.length : ℚ))
  else 0

/-- The specification's description of `averageRating`: the mean over the
members of each member's average of the six stats, rounded to the nearest
integer with halves rounded up; 0 for a team with no members.  Stated
independently of `avgOverall` so that the two can be compared. -/
def specAverageRating (t : Team Person) : Int :=
  if t.members.length = 0 then 0
  else
    jsRound ((t.members.map (fun m =>
      ((m.stats.pace + m.stats.shooting + m.stats.passing + m.stats.dribbling +
        m.stats.defending + m.stats.physical : Int) : ℚ) / 6)).sum /
      (t.members.length : ℚ))

/-! ### The REST handlers (`server.js` and the variant in `src/unnamed/part_002`)

The Mongo-backed stores are modelled as in-memory lists; `insertOne` appends
and assigns a fresh id, `updateOne` / `deleteOne` act on the first record
whose `_id` matches.  Request bodies that reach `JSON.parse` are modelled by
`StatsField`: the parse either cannot run (field absent), throws (invalid
JSON), or yields a JSON value. -/

/-- A parsed JSON value, the result of a successful `JSON.parse`. -/
inductive Json where
  | null
  | bool (b : Bool)
  | num (n : Int)
  | str (s : String)
  | arr (elems : List Json)
  | obj (fields : List (String × Json))

/-- Is a JSON value a number? -/
def Json.isNum : Json → Bool
  | .num _ => true
  | _ => false

/-- The specification's six-field stats record shape: an object with exactly
the fields `pace, shooting, passing, dribbling, defending, physical`, each
numeric. -/
def Json.isStatsRecord : Json → Bool
  | .obj fields =>
    fields.map Prod.fst =
        ["pace", "shooting", "passing", "dribbling", "defending", "physical"]
      && fields.all (fun f => f.2.isNum)
  | _ => false

/-- The `stats` field of a request body as seen by the handlers: absent
(`req.body.stats` is `undefined`), present but not valid JSON (`JSON.parse`
throws), or successfully parsed. -/
inductive StatsField where
  | absent
  | invalid
  | parsed (j : Json)

/-- A stored document of the `persons` collection. -/
structure PersonRecord where
  id : Nat
  name : Option String
  stats : Json
  photo : Option String
  createdAt : Nat
  updatedAt : Option Nat

/-- The `POST /api/persons` handler of `src/unnamed/part_002` (lines 91-121),
the variant with explicit stats validation: missing stats answer 400, a stats
string that fails `JSON.parse` answers 400, and otherwise the parsed value is
stored verbatim (`photo` is always `null` in this variant) with a fresh id and
`createdAt`; the result is `(HTTP status, new store)`. -/
def postPersons (store : List PersonRecord) (name : Option String) (stats : StatsField)
    (now : Nat) : Nat × List PersonRecord :=
  match stats with
  | .absent => (400, store)
  | .invalid => (400, store)
  | .parsed j => (201, store ++ [⟨store.length, name, j, none, now, none⟩])

/-- The `POST /api/persons` handler of `src/server.js` (lines 112-130): no
explicit validation, so a missing or unparseable `stats` makes `JSON.parse`
throw and the catch-all answers 500; an uploaded photo is stored as the marker
string `"Buffer_in_Memory:<size>"`. -/
def postPersonsServerJs (store : List PersonRecord) (name : Option String)
    (stats : StatsField) (photoFile : Option Nat) (now : Nat) : Nat × List PersonRecord :=
  match stats with
  | .absent => (500, store)
  | .invalid => (500, store)
  | .parsed j =>
    (201, store ++ [⟨store.length, name, j,
      photoFile.map (fun sz => "Buffer_in_Memory:" ++ toString sz), now, none⟩])

/-- The `$set` document built by the `PUT /api/persons/:id` handler of
`src/server.js` (lines 138-151): `name`, `stats` and `updatedAt` are always
set, `photo` only when a file was uploaded. -/
def applyUpdate (name : Option String) (j : Json) (photoFile : Option Nat) (now : Nat)
    (r : PersonRecord) : PersonRecord :=
  { r with
    name := name
    stats := j
    updatedAt := some now
    photo := match photoFile with
      | some sz => some ("Buffer_in_Memory:" ++ toString sz)
      | none => r.photo }

/-- `updateOne`: apply `f` to the first record whose `_id` matches. -/
def updateFirst (id : Nat) (f : PersonRecord → PersonRecord) :
    List PersonRecord → List PersonRecord
  | [] => []
  | r :: rs => if r.id = id then f r :: rs else r :: updateFirst id f rs

/-- The `PUT /api/persons/:id` handler of `src/server.js` (lines 133-161).
`JSON.parse(stats)` runs first, so a missing or unparseable `stats` throws and
answers 500; then `updateOne` matches on `_id` and a zero `matchedCount`
answers 404, otherwise 200 with the first matching record updated. -/
def putPerson (store : List PersonRecord) (id : Nat) (name : Option String)
    (stats : StatsField) (photoFile : Option Nat) (now : Nat) : Nat × List PersonRecord :=
  match stats with
  | .absent => (500, store)
  | .invalid => (500, store)
  | .parsed j =>
    if store.any (fun r => r.id = id) then
      (200, updateFirst id (applyUpdate name j photoFile now) store)
    else (404, store)

/-- A stored document of the `savedTeams` collection; the `teams` payload is
opaque to the store, hence a type parameter. -/
structure SavedTeamSet (α : Type) where
  id : Nat
  teams : α
  createdAt : Nat
deriving DecidableEq, Repr

/-- Most-recent-first comparison on saved team sets, the order requested by
`find().sort({ createdAt: -1 })`. -/
def byNewest (a b : SavedTeamSet α) : Prop := b.createdAt ≤ a.createdAt

instance : DecidableRel (byNewest (α := α)) := fun a b =>
  inferInstanceAs (Decidable (b.createdAt ≤ a.createdAt))

instance : IsTotal (SavedTeamSet α) byNewest :=
  ⟨fun a b => (Nat.le_total b.createdAt a.createdAt).imp id id⟩

instance : IsTrans (SavedTeamSet α) byNewest :=
  ⟨fun _ _ _ h1 h2 => Nat.le_trans h2 h1⟩

/-- The `GET /api/teams` handler of `src/server.js` (lines 180-187): return
every stored team set sorted by `createdAt` descending. -/
def listSavedTeamSets (store : List (SavedTeamSet α)) : List (SavedTeamSet α) :=
  List.insertionSort byNewest store

/-- `updateOne` on a store whose first matching record is `r`: everything
before `r` is kept, `r` is replaced by `f r`, the tail is kept. -/
theorem updateFirst_append (id : Nat) (f : PersonRecord → PersonRecord) :
    ∀ (pre : List PersonRecord) (r : PersonRecord) (rest : List PersonRecord),
      (∀ q ∈ pre, q.id ≠ id) → r.id = id →
      updateFirst id f (pre ++ r :: rest) = pre ++ f r :: rest := by
  intro pre
  induction pre with
  | nil =>
    intro r rest _ hr
    simp [updateFirst, hr]
  | cons q qs ih =>
    intro r rest hpre hr
    have hq : ¬ q.id = id := hpre q (List.mem_cons_self q qs)
    simp [updateFirst, hq,
      ih r rest (fun a ha => hpre a (List.mem_cons_of_mem q ha)) hr]

/-! ### The claims -/

/-- Claim C1: for every list of players and integer `teamCount` with
`players.length >= teamCount >= 1` (and any shuffle outcome, which is always a
permutation of the input), `generateTeams` produces exactly `teamCount` teams
whose member counts differ pairwise by at most 1 and sum to
`players.length`. -/
theorem claim_C1 (persons : List α) (shuffle : List α → List α) (numTeams : Int)
    (h1 : 1 ≤ numTeams) (h2 : numTeams ≤ (persons.length : Int))
    (hs : (shuffle persons).Perm persons) :
    ∃ res, generateTeams persons shuffle numTeams = GenResult.ok res ∧
      (res.length : Int) = numTeams ∧
      (res.map (fun t => t.members.length)).sum = persons.length ∧
      ∀ t1 ∈ res, ∀ t2 ∈ res, t1.members.length ≤ t2.members.length + 1 := by
  refine ⟨genResultTeams (shuffle persons) numTeams.toNat,
    generateTeams_ok persons shuffle numTeams h1 h2, ?_, ?_, ?_⟩
  · rw [genResultTeams_length]; omega
  · have hperm := (genResultTeams_flatten_perm (shuffle persons) numTeams h1).trans hs
    have hlen := hperm.length_eq
    rw [List.length_flatten, List.map_map] at hlen
    simpa [Function.comp] using hlen
  · have hk : 0 < numTeams.toNat := by omega
    have hsize : ∀ t ∈ genResultTeams (shuffle persons) numTeams.toNat,
        (shuffle persons).length / numTeams.toNat ≤ t.members.length ∧
        t.members.length ≤ (shuffle persons).length / numTeams.toNat + 1 := by
      intro t ht
      obtain ⟨j, hj, rfl⟩ : ∃ j, j < numTeams.toNat ∧ teamAt (shuffle persons) numTeams.toNat j = t := by
        simpa [genResultTeams, List.mem_map, List.mem_range] using ht
      rw [teamAt_size (shuffle persons) numTeams.toNat j hk hj]
      split <;> omega
    intro t1 h1m t2 h2m
    have := hsize t1 h1m
    have := hsize t2 h2m
    omega

/-- Witness for C1 at `persons = [0,1,2]`, identity shuffle, `teamCount = 2`. -/
theorem claim_C1_witness :
    ∃ res, generateTeams [0, 1, 2] id 2 = GenResult.ok res ∧
      (res.length : Int) = 2 ∧
      (res.map (fun t => t.members.length)).sum = ([0, 1, 2] : List Nat).length ∧
      ∀ t1 ∈ res, ∀ t2 ∈ res, t1.members.length ≤ t2.members.length + 1 :=
  claim_C1 [0, 1, 2] id 2 (by norm_num) (by norm_num) (List.Perm.refl _)

/-- Claim C2 is refuted: `generateTeams` performs no `teamCount < 1` check, so
with `teamCount = 0` it never raises the validation alert: with no players it
returns an empty team list, and with a player it crashes with a type error. -/
theorem claim_C2_counterexample :
    generateTeams ([] : List Nat) id 0 = GenResult.ok [] ∧
    generateTeams [0] id 0 = GenResult.typeError := by
  exact ⟨by decide, by decide⟩

/-- Claim C2 as amended: `generateTeams` fails with the validation error
(reporting the required minimum, `numTeams`, and returning no team sequence)
exactly when `players.length < teamCount`; in particular no validation error
is ever raised when `teamCount < 1`. -/
theorem claim_C2_amended (persons : List α) (shuffle : List α → List α) (numTeams : Int) :
    generateTeams persons shuffle numTeams = GenResult.validationError numTeams ↔
      (persons.length : Int) < numTeams := by
  constructor
  · intro h
    by_contra hn
    rw [generateTeams, if_neg hn] at h
    cases hd : distribute (shuffle persons) numTeams <;> rw [hd] at h <;> simp at h
  · intro h
    rw [generateTeams, if_pos h]

/-- Claim C3: for every valid input, every player of the input appears in
exactly one team of the output: the concatenation of all team member lists is
a permutation of the input list (no duplication, no omission). -/
theorem claim_C3 (persons : List α) (shuffle : List α → List α) (numTeams : Int)
    (h1 : 1 ≤ numTeams) (h2 : numTeams ≤ (persons.length : Int))
    (hs : (shuffle persons).Perm persons) :
    ∃ res, generateTeams persons shuffle numTeams = GenResult.ok res ∧
      ((res.map Team.members).flatten).Perm persons :=
  ⟨genResultTeams (shuffle persons) numTeams.toNat,
    generateTeams_ok persons shuffle numTeams h1 h2,
    (genResultTeams_flatten_perm (shuffle persons) numTeams h1).trans hs⟩

/-- Witness for C3 at `persons = [5,6,7,8]`, identity shuffle, `teamCount = 3`. -/
theorem claim_C3_witness :
    ∃ res, generateTeams [5, 6, 7, 8] id 3 = GenResult.ok res ∧
      ((res.map Team.members).flatten).Perm [5, 6, 7, 8] :=
  claim_C3 [5, 6, 7, 8] id 3 (by norm_num) (by norm_num) (List.Perm.refl _)

/-- Claim C5: for every valid input, the produced teams are named
sequentially `"Team 1"` through `"Team N"`, and the team at index `j` holds
exactly the shuffled players whose index `i` satisfies `i % teamCount = j`,
in increasing index order — so the assignment is a deterministic function of
the shuffle outcome. -/
theorem claim_C5 (persons : List α) (shuffle : List α → List α) (numTeams : Int)
    (h1 : 1 ≤ numTeams) (h2 : numTeams ≤ (persons.length : Int)) :
    ∃ res, generateTeams persons shuffle numTeams = GenResult.ok res ∧
      (res.length : Int) = numTeams ∧
      ∀ j, j < numTeams.toNat →
        res[j]? = some ⟨"Team " ++ toString (j + 1),
          (((shuffle persons).enumFrom 0).filter
            (fun q => q.1 % numTeams.toNat = j)).map Prod.snd⟩ := by
  refine ⟨genResultTeams (shuffle persons) numTeams.toNat,
    generateTeams_ok persons shuffle numTeams h1 h2, ?_, ?_⟩
  · rw [genResultTeams_length]; omega
  · intro j hj
    rw [genResultTeams_getElem?, if_pos hj]
    rfl

/-- Witness for C5 at `persons = [4,5,6]`, identity shuffle, `teamCount = 2`. -/
theorem claim_C5_witness :
    ∃ res, generateTeams [4, 5, 6] id 2 = GenResult.ok res ∧
      (res.length : Int) = 2 ∧
      ∀ j, j < (2 : Int).toNat →
        res[j]? = some ⟨"Team " ++ toString (j + 1),
          ((([4, 5, 6] : List Nat).enumFrom 0).filter
            (fun q => q.1 % (2 : Int).toNat = j)).map Prod.snd⟩ :=
  claim_C5 [4, 5, 6] id 2 (by norm_num) (by norm_num)

/-- Claim C4: for every team, `avgOverall` (computed by `renderTeams`) equals
the specification's `averageRating` — the mean over the members of each
member's six-stat average, rounded to the nearest integer with halves rounded
up, and 0 for a team with no members; in particular a team of a single player
with stats `{80,70,60,90,50,40}` has average rating 65.  (JavaScript number
arithmetic is modelled as exact rational arithmetic.) -/
theorem claim_C4 :
    (∀ t : Team Person, avgOverall t = specAverageRating t) ∧
    avgOverall ⟨"Team 1", [⟨"p", ⟨80, 70, 60, 90, 50, 40⟩⟩]⟩ = 65 := by
  constructor
  · intro t
    cases h : t.members with
    | nil => simp [avgOverall, specAverageRating, h]
    | cons m ms =>
      have hov : overall = fun p : Person =>
          ((p.stats.pace + p.stats.shooting + p.stats.passing + p.stats.dribbling +
            p.stats.defending + p.stats.physical : Int) : ℚ) / 6 := by
        funext p
        simp [overall, statsSum]
      simp only [avgOverall, specAverageRating, h, List.length_cons,
        Nat.succ_ne_zero, if_false, if_pos (Nat.succ_pos ms.length),
        List.sum_eq_foldl, hov]
  · norm_num [avgOverall, overall, statsSum, jsRound]

/-- Claim C6 is refuted on the stats-validating handler: a `stats` string
that parses as JSON but is not the six-field record (here the empty array) is
accepted with status 201 and the record is inserted, instead of failing with
a validation error. -/
theorem claim_C6_counterexample :
    (Json.arr []).isStatsRecord = false ∧
    postPersons [] (some "x") (StatsField.parsed (Json.arr [])) 0 =
      (201, [⟨0, some "x", Json.arr [], none, 0, none⟩]) := by
  exact ⟨rfl, rfl⟩

/-- Claim C6 as amended: the stats-validating `POST /api/persons` handler
(`src/unnamed/part_002`) answers 400 and leaves the store unchanged when
`stats` is absent or fails to parse as JSON, but accepts any successfully
parsed JSON value verbatim (201, record appended) without checking the
six-field shape; the `src/server.js` handler instead answers 500 for a
missing `stats`, likewise leaving the store unchanged. -/
theorem claim_C6_amended :
    (∀ (store : List PersonRecord) (name : Option String) (now : Nat),
        postPersons store name StatsField.absent now = (400, store)) ∧
    (∀ (store : List PersonRecord) (name : Option String) (now : Nat),
        postPersons store name StatsField.invalid now = (400, store)) ∧
    (∀ (store : List PersonRecord) (name : Option String) (j : Json) (now : Nat),
        postPersons store name (StatsField.parsed j) now =
          (201, store ++ [⟨store.length, name, j, none, now, none⟩])) ∧
    (∀ (store : List PersonRecord) (name : Option String) (now : Nat),
        postPersonsServerJs store name StatsField.absent none now = (500, store)) :=
  ⟨fun _ _ _ => rfl, fun _ _ _ => rfl, fun _ _ _ _ => rfl, fun _ _ _ => rfl⟩

/-- Claim C7: updating a player whose id matches no stored record answers 404
(NotFound) and leaves the player store unchanged. -/
theorem claim_C7 (store : List PersonRecord) (id : Nat) (name : Option String)
    (j : Json) (photoFile : Option Nat) (now : Nat)
    (h : ∀ r ∈ store, r.id ≠ id) :
    putPerson store id name (StatsField.parsed j) photoFile now = (404, store) := by
  have hany : ¬ store.any (fun r => r.id = id) = true := by
    simp only [List.any_eq_true, decide_eq_true_eq, not_exists]
    rintro r ⟨hr, hid⟩
    exact h r hr hid
  simp [putPerson, hany]

/-- Witness for C7: updating id 5 in a store holding only id 0. -/
theorem claim_C7_witness :
    putPerson [⟨0, none, Json.null, none, 0, none⟩] 5 none
      (StatsField.parsed Json.null) none 1 = (404, [⟨0, none, Json.null, none, 0, none⟩]) :=
  claim_C7 [⟨0, none, Json.null, none, 0, none⟩] 5 none Json.null none 1
    (by intro r hr; simp at hr; simp [hr])

/-- Claim C8: a successful update with no new photo replaces `name`, `stats`
and `updatedAt` of the first matching record but leaves its `photo` (and
`createdAt`) exactly as stored; the `photo` field changes only when a photo is
supplied, in which case it becomes the uploaded file's marker. -/
theorem claim_C8 (pre : List PersonRecord) (r : PersonRecord) (rest : List PersonRecord)
    (id : Nat) (name : Option String) (j : Json) (now : Nat)
    (hpre : ∀ q ∈ pre, q.id ≠ id) (hr : r.id = id) :
    putPerson (pre ++ r :: rest) id name (StatsField.parsed j) none now =
      (200, pre ++ { r with name := name, stats := j, updatedAt := some now } :: rest) ∧
    ∀ sz : Nat,
      putPerson (pre ++ r :: rest) id name (StatsField.parsed j) (some sz) now =
        (200, pre ++
          { r with
            name := name
            stats := j
            updatedAt := some now
            photo := some ("Buffer_in_Memory:" ++ toString sz) } :: rest) := by
  have hany : (pre ++ r :: rest).any (fun q => q.id = id) = true := by
    simp only [List.any_eq_true]
    exact ⟨r, by simp, by simp [hr]⟩
  constructor
  · simp only [putPerson, hany, if_pos]
    rw [updateFirst_append id _ pre r rest hpre hr]
    rfl
  · intro sz
    simp only [putPerson, hany, if_pos]
    rw [updateFirst_append id _ pre r rest hpre hr]
    rfl

/-- Witness for C8: updating the only record (id 7, stored photo
`"keep.png"`); without an uploaded photo the stored photo survives, with one
it is replaced by the upload marker. -/
theorem claim_C8_witness :
    putPerson [⟨7, some "old", Json.null, some "keep.png", 3, none⟩] 7 (some "new")
        (StatsField.parsed (Json.num 1)) none 9 =
      (200, [⟨7, some "new", Json.num 1, some "keep.png", 3, some 9⟩]) ∧
    putPerson [⟨7, some "old", Json.null, some "keep.png", 3, none⟩] 7 (some "new")
        (StatsField.parsed (Json.num 1)) (some 4) 9 =
      (200, [⟨7, some "new", Json.num 1, some "Buffer_in_Memory:4", 3, some 9⟩]) :=
  ⟨(claim_C8 [] ⟨7, some "old", Json.null, some "keep.png", 3, none⟩ [] 7 (some "new")
      (Json.num 1) 9 (by simp) rfl).1,
   (claim_C8 [] ⟨7, some "old", Json.null, some "keep.png", 3, none⟩ [] 7 (some "new")
      (Json.num 1) 9 (by simp) rfl).2 4⟩

/-- Claim C9: `listSavedTeamSets` returns all stored team sets (a permutation
of the store) ordered by `createdAt` descending; in particular three sets
saved at times 10, 20 and 30 are listed newest first. -/
theorem claim_C9 :
    (∀ (α : Type) (store : List (SavedTeamSet α)),
        (listSavedTeamSets store).Perm store ∧
        List.Sorted byNewest (listSavedTeamSets store)) ∧
    listSavedTeamSets [⟨1, (0 : Nat), 10⟩, ⟨2, 0, 20⟩, ⟨3, 0, 30⟩] =
      [⟨3, 0, 30⟩, ⟨2, 0, 20⟩, ⟨1, 0, 10⟩] :=
  ⟨fun _ store => ⟨List.perm_insertionSort byNewest store,
    List.sorted_insertionSort byNewest store⟩, by decide⟩

/-- Claim C10: for `n = players.length`, `k = teamCount` with
`n >= k >= 1`, the team sizes depend only on `n` and `k` (the shuffle
outcome enters only through its length): the team at index `j` has exactly
`ceil((n-j)/k) = (n - j + (k-1)) / k` members, equivalently
`floor(n/k)` plus one for the first `n mod k` teams; when `k` does not
divide `n`, `"Team 1"` (index 0) has the larger size, bounding every other
team. -/
theorem claim_C10 (persons : List α) (shuffle : List α → List α) (numTeams : Int)
    (h1 : 1 ≤ numTeams) (h2 : numTeams ≤ (persons.length : Int))
    (hlen : (shuffle persons).length = persons.length) :
    ∃ res, generateTeams persons shuffle numTeams = GenResult.ok res ∧
      (∀ j, j < numTeams.toNat →
        ∃ t, res[j]? = some t ∧
          t.members.length = (persons.length - j + (numTeams.toNat - 1)) / numTeams.toNat ∧
          t.members.length = persons.length / numTeams.toNat +
            (if j < persons.length % numTeams.toNat then 1 else 0)) ∧
      (persons.length % numTeams.toNat ≠ 0 →
        ∃ t0, res[0]? = some t0 ∧
          t0.members.length = persons.length / numTeams.toNat + 1 ∧
          ∀ t ∈ res, t.members.length ≤ t0.members.length) := by
  have hk : 0 < numTeams.toNat := by omega
  have hkn : numTeams.toNat ≤ persons.length := by omega
  have hsize : ∀ j, j < numTeams.toNat →
      (teamAt (shuffle persons) numTeams.toNat j).members.length =
        persons.length / numTeams.toNat +
          (if j < persons.length % numTeams.toNat then 1 else 0) := by
    intro j hj
    rw [teamAt_size (shuffle persons) numTeams.toNat j hk hj, hlen]
  refine ⟨genResultTeams (shuffle persons) numTeams.toNat,
    generateTeams_ok persons shuffle numTeams h1 h2, ?_, ?_⟩
  · intro j hj
    refine ⟨teamAt (shuffle persons) numTeams.toNat j, ?_, ?_, hsize j hj⟩
    · rw [genResultTeams_getElem?, if_pos hj]
    · rw [teamAt_members_length, hlen,
        cntFrom_zero numTeams.toNat j hk hj persons.length]
      congr 1
      omega
  · intro hmod
    refine ⟨teamAt (shuffle persons) numTeams.toNat 0, ?_, ?_, ?_⟩
    · rw [genResultTeams_getElem?, if_pos hk]
    · rw [hsize 0 hk, if_pos (by omega)]
    · intro t ht
      obtain ⟨j, hj, rfl⟩ :
          ∃ j, j < numTeams.toNat ∧ teamAt (shuffle persons) numTeams.toNat j = t := by
        simpa [genResultTeams, List.mem_map, List.mem_range] using ht
      rw [hsize j hj, hsize 0 hk]
      have hd : 0 < persons.length % numTeams.toNat := Nat.pos_of_ne_zero hmod
      split <;> omega

/-- Witness for C10 at `persons = [0,1,2]`, identity shuffle, `teamCount = 2`
(sizes 2 and 1, `"Team 1"` larger). -/
theorem claim_C10_witness :
    ∃ res, generateTeams [0, 1, 2] id 2 = GenResult.ok res ∧
      (∀ j, j < (2 : Int).toNat →
        ∃ t, res[j]? = some t ∧
          t.members.length = (([0, 1, 2] : List Nat).length - j + ((2 : Int).toNat - 1)) /
            (2 : Int).toNat ∧
          t.members.length = ([0, 1, 2] : List Nat).length / (2 : Int).toNat +
            (if j < ([0, 1, 2] : List Nat).length % (2 : Int).toNat then 1 else 0)) ∧
      (([0, 1, 2] : List Nat).length % (2 : Int).toNat ≠ 0 →
        ∃ t0, res[0]? = some t0 ∧
          t0.members.length = ([0, 1, 2] : List Nat).length / (2 : Int).toNat + 1 ∧
          ∀ t ∈ res, t.members.length ≤ t0.members.length) :=
  claim_C10 [0, 1, 2] id 2 (by norm_num) (by norm_num) rfl

end TeamGenerator
